import Mathlib

/-
Verification of the blenloader read/write interface model and of the
Simulation modifier callbacks.

The repository ships the public interface BLO_read_write.h of the blend
file persistence engine together with MOD_simulation.cc.  The modifier
file is embedded directly.  The persistence engine behind the interface
is not part of the repository, so its behaviour is modelled from the
specification document, definition by definition; each such definition
carries a doc comment naming the missing piece.
-/

/-! ## Simulation modifier (embedded from MOD_simulation.cc) -/

/-- Opaque handle for a Simulation data block referenced by the modifier. -/
structure Simulation where
  handle : Nat
deriving DecidableEq

/-- Embeds SimulationModifierData: the only field the callbacks touch is the
simulation pointer, modelled as an optional handle (none is the null pointer). -/
structure SimulationModifierData where
  simulation : Option Simulation
deriving DecidableEq

/-- Opaque handle for a PointCloud object passed through the modifier stack. -/
structure PointCloud where
  handle : Nat
deriving DecidableEq

/-- Opaque handle for a Scene, an argument the callbacks receive but ignore. -/
structure Scene where
  handle : Nat
deriving DecidableEq

/-- Opaque handle for the modifier evaluation context argument. -/
structure ModifierEvalContext where
  handle : Nat
deriving DecidableEq

/-- Embeds modifyPointCloud of MOD_simulation.cc.  The body casts md, discards
it and returns the pointcloud argument.  The result triple is the returned
pointcloud followed by the post states of the two mutable arguments md and
pointcloud, which the body never writes to. -/
def modifyPointCloud (md : SimulationModifierData) (ctx : ModifierEvalContext)
    (pointcloud : PointCloud) : PointCloud × SimulationModifierData × PointCloud :=
  (pointcloud, md, pointcloud)

/-- Embeds isDisabled of MOD_simulation.cc: returns whether the simulation
pointer of the modifier data is null; scene and useRenderParams are unused. -/
def isDisabled (scene : Option Scene) (md : SimulationModifierData)
    (useRenderParams : Bool) : Bool :=
  md.simulation.isNone

/-! ## Writer model -/

/-- Modelled from the spec: error taxonomy of the write path; UnknownStruct is
raised when a struct name is not in the type catalog. -/
inductive WriteError where
  | unknownStruct
deriving DecidableEq

/-- Modelled from the spec: the TypeCatalog maps struct names to small integer
ids.  The implementation behind BLO_get_struct_id_by_name is not in the
repository. -/
def TypeCatalog := List (String × Nat)

/-- Modelled from the spec: a source struct instance as the writer sees it, an
address used as identity token, plain field values, and the stored next
pointer that makes linked list nodes chain together. -/
structure SrcNode where
  addr : Nat
  vals : List Int
  next : Option Nat
deriving DecidableEq

/-- Modelled from the spec: the payload of one Record on the stream; struct
payloads keep field values and the stored next pointer, array payloads keep
one element list per struct, raw payloads are plain bytes, and written C
strings keep their characters. -/
inductive Payload where
  | fields (vals : List Int) (next : Option Nat)
  | arr (elems : List (List Int))
  | raw (bytes : List Nat)
  | str (s : String)
deriving DecidableEq

/-- Modelled from the spec: one serialized Record: struct id tag (none for raw
data), identity token taken from the source address, and the payload. -/
structure Record where
  structId : Option Nat
  identity : Nat
  payload : Payload
deriving DecidableEq

/-- Modelled from the spec: the BlendWriter session state behind the opaque
BlendWriter pointer of BLO_read_write.h: the type catalog, the byte order the
session writes in, the undo flag, and the records appended so far. -/
structure BlendWriter where
  catalog : List (String × Nat)
  bigEndian : Bool
  isUndo : Bool
  records : List Record
deriving DecidableEq

/-- Truncates an integer value to its unsigned 32 bit representative. -/
def toUInt32 (v : Int) : Nat :=
  (v % 4294967296).toNat

/-- Serializes one unsigned 32 bit value to four bytes in the given order. -/
def bytes4 (bigEndian : Bool) (u : Nat) : List Nat :=
  if bigEndian then
    [u / 16777216 % 256, u / 65536 % 256, u / 256 % 256, u % 256]
  else
    [u % 256, u / 256 % 256, u / 65536 % 256, u / 16777216 % 256]

/-- Serializes an int32 array to bytes in the given byte order. -/
def encodeInt32Array (bigEndian : Bool) : List Int → List Nat
  | [] => []
  | v :: vs => bytes4 bigEndian (toUInt32 v) ++ encodeInt32Array bigEndian vs

/-- Serializes a uint32 array (values as bit patterns) to bytes. -/
def encodeUInt32Array (bigEndian : Bool) : List Nat → List Nat
  | [] => []
  | u :: us => bytes4 bigEndian (u % 4294967296) ++ encodeUInt32Array bigEndian us

/-- Modelled from the spec: BLO_get_struct_id_by_name; the name lookup in the
type catalog fails with UnknownStruct when the name is absent. -/
def BLO_get_struct_id_by_name (writer : BlendWriter) (structName : String) :
    Except WriteError Nat :=
  match writer.catalog.lookup structName with
  | some id => Except.ok id
  | none => Except.error WriteError.unknownStruct

/-- Modelled from the spec: BLO_write_struct_by_id appends one Record carrying
the source address as identity; a null data pointer writes nothing. -/
def BLO_write_struct_by_id (writer : BlendWriter) (structId : Nat)
    (dataPtr : Option SrcNode) : BlendWriter :=
  match dataPtr with
  | none => writer
  | some node =>
    { writer with
      records := writer.records ++ [⟨some structId, node.addr, Payload.fields node.vals node.next⟩] }

/-- Modelled from the spec: BLO_write_struct_by_name resolves the name first;
an unknown name is fatal to the write call. -/
def BLO_write_struct_by_name (writer : BlendWriter) (structName : String)
    (dataPtr : Option SrcNode) : Except WriteError BlendWriter :=
  match BLO_get_struct_id_by_name writer structName with
  | Except.ok structId => Except.ok (BLO_write_struct_by_id writer structId dataPtr)
  | Except.error e => Except.error e

/-- Modelled from the spec: BLO_write_struct_array_by_id appends one Record for
the whole array with an element count; null data writes nothing. -/
def BLO_write_struct_array_by_id (writer : BlendWriter) (structId : Nat)
    (arraySize : Nat) (dataPtr : Option (Nat × List (List Int))) : BlendWriter :=
  match dataPtr with
  | none => writer
  | some (addr, elems) =>
    { writer with
      records := writer.records ++ [⟨some structId, addr, Payload.arr (elems.take arraySize)⟩] }

/-- Modelled from the spec: records emitted by a struct list write, one per
node, in head to tail traversal order, each using the node address as
identity. -/
def writeListRecords (structId : Nat) (nodes : List SrcNode) : List Record :=
  nodes.map (fun n => ⟨some structId, n.addr, Payload.fields n.vals n.next⟩)

/-- Modelled from the spec: BLO_write_struct_list_by_id walks the list from
head to tail writing one Record per node; a null list writes nothing. -/
def BLO_write_struct_list_by_id (writer : BlendWriter) (structId : Nat)
    (list : Option (List SrcNode)) : BlendWriter :=
  match list with
  | none => writer
  | some nodes =>
    { writer with records := writer.records ++ writeListRecords structId nodes }

/-- Modelled from the spec: blo_write_id_struct writes a top level entity
struct under the given id address; a null address writes nothing. -/
def blo_write_id_struct (writer : BlendWriter) (structId : Nat)
    (idAddress : Option Nat) (idData : SrcNode) : BlendWriter :=
  match idAddress with
  | none => writer
  | some addr =>
    { writer with
      records := writer.records ++ [⟨some structId, addr, Payload.fields idData.vals idData.next⟩] }

/-- Modelled from the spec: BLO_write_raw appends one raw Record of the given
byte size; a null data pointer writes nothing. -/
def BLO_write_raw (writer : BlendWriter) (sizeInBytes : Nat)
    (dataPtr : Option (Nat × List Nat)) : BlendWriter :=
  match dataPtr with
  | none => writer
  | some (addr, bytes) =>
    { writer with records := writer.records ++ [⟨none, addr, Payload.raw (bytes.take sizeInBytes)⟩] }

/-- Modelled from the spec: BLO_write_int32_array serializes the elements in
the session byte order as raw bytes; a null data pointer writes nothing. -/
def BLO_write_int32_array (writer : BlendWriter) (size : Nat)
    (dataPtr : Option (Nat × List Int)) : BlendWriter :=
  match dataPtr with
  | none => writer
  | some (addr, vs) =>
    { writer with
      records := writer.records ++
        [⟨none, addr, Payload.raw (encodeInt32Array writer.bigEndian (vs.take size))⟩] }

/-- Modelled from the spec: BLO_write_uint32_array, as the int32 variant but
with unsigned bit patterns. -/
def BLO_write_uint32_array (writer : BlendWriter) (size : Nat)
    (dataPtr : Option (Nat × List Nat)) : BlendWriter :=
  match dataPtr with
  | none => writer
  | some (addr, us) =>
    { writer with
      records := writer.records ++
        [⟨none, addr, Payload.raw (encodeUInt32Array writer.bigEndian (us.take size))⟩] }

/-- Modelled from the spec: BLO_write_float_array; float values are carried as
opaque 32 bit patterns, so the byte transport is the same as for uint32. -/
def BLO_write_float_array (writer : BlendWriter) (size : Nat)
    (dataPtr : Option (Nat × List Nat)) : BlendWriter :=
  match dataPtr with
  | none => writer
  | some (addr, us) =>
    { writer with
      records := writer.records ++
        [⟨none, addr, Payload.raw (encodeUInt32Array writer.bigEndian (us.take size))⟩] }

/-- Modelled from the spec: BLO_write_float3_array writes three floats per
element, each carried as an opaque 32 bit pattern. -/
def BLO_write_float3_array (writer : BlendWriter) (size : Nat)
    (dataPtr : Option (Nat × List Nat)) : BlendWriter :=
  match dataPtr with
  | none => writer
  | some (addr, us) =>
    { writer with
      records := writer.records ++
        [⟨none, addr, Payload.raw (encodeUInt32Array writer.bigEndian (us.take (3 * size)))⟩] }

/-- Modelled from the spec: BLO_write_string writes the characters of a C
string as one Record; a null pointer writes nothing. -/
def BLO_write_string (writer : BlendWriter) (dataPtr : Option (Nat × String)) :
    BlendWriter :=
  match dataPtr with
  | none => writer
  | some (addr, s) =>
    { writer with records := writer.records ++ [⟨none, addr, Payload.str s⟩] }

/-- Modelled from the spec: BLO_write_is_undo exposes whether the session is a
transient undo save. -/
def BLO_write_is_undo (writer : BlendWriter) : Bool :=
  writer.isUndo

/-! ## Data reader model -/

/-- Modelled from the spec: error taxonomy of the data read path; an
UnresolvedLocalPointer is reported when an identity was never registered and
is not deferred to the library reader. -/
inductive ReadError where
  | unresolvedLocalPointer (identity : Nat)
deriving DecidableEq

/-- Modelled from the spec: the BlendDataReader session state behind the
opaque BlendDataReader pointer: the record stream being consumed, the byte
order recorded in the file header, the host byte order, the identities whose
resolution is deferred to the library reader, and the errors reported so
far. -/
structure BlendDataReader where
  records : List Record
  fileBigEndian : Bool
  hostBigEndian : Bool
  deferredToLib : List Nat
  errors : List ReadError
deriving DecidableEq

/-- Builds the read session consuming the stream a writer produced, on a host
with the given byte order. -/
def mkDataReader (writer : BlendWriter) (hostBigEndian : Bool)
    (deferredToLib : List Nat) : BlendDataReader :=
  { records := writer.records
    fileBigEndian := writer.bigEndian
    hostBigEndian := hostBigEndian
    deferredToLib := deferredToLib
    errors := [] }

/-- Finds the first record carrying the given identity token. -/
def lookupRecord (records : List Record) (identity : Nat) : Option Record :=
  records.find? (fun r => r.identity == identity)

/-- Modelled from the spec: BLO_read_requires_endian_switch compares the byte
order recorded for the session with the host byte order. -/
def BLO_read_requires_endian_switch (reader : BlendDataReader) : Bool :=
  reader.fileBigEndian != reader.hostBigEndian

/-- Modelled from the spec: BLO_read_get_new_data_address resolves an old
identity to the newly allocated storage (modelled by the record index).  An
unregistered identity yields the sentinel none; if it is not deferred to the
library reader either, an UnresolvedLocalPointer error is reported in the
session state, and the caller still receives the sentinel. -/
def BLO_read_get_new_data_address (reader : BlendDataReader) (oldAddress : Nat) :
    Option Nat × BlendDataReader :=
  match reader.records.findIdx? (fun r => r.identity == oldAddress) with
  | some newAddress => (some newAddress, reader)
  | none =>
    if oldAddress ∈ reader.deferredToLib then
      (none, reader)
    else
      (none, { reader with
               errors := reader.errors ++ [ReadError.unresolvedLocalPointer oldAddress] })

/-- Resolves an identity to the field values and stored next pointer of its
struct record, if any. -/
def structPayload (records : List Record) (identity : Nat) :
    Option (List Int × Option Nat) :=
  match lookupRecord records identity with
  | some ⟨_, _, Payload.fields vals nxt⟩ => some (vals, nxt)
  | _ => none

/-- Modelled from the spec: the traversal loop of BLO_read_list follows stored
next pointers starting from the old head address, reconstructing one node per
step; fuel bounds the walk so corrupt streams cannot loop. -/
def readListAux (records : List Record) : Nat → Option Nat → List (List Int)
  | _, none => []
  | 0, some _ => []
  | fuel + 1, some a =>
    match structPayload records a with
    | some (vals, nxt) => vals :: readListAux records fuel nxt
    | none => []

/-- Modelled from the spec: BLO_read_list rebuilds a linked list in original
order from the old head pointer of the ListBase; the per node callback only
patches pointers inside each node, so the reconstruction is returned as the
field values of the nodes in traversal order. -/
def BLO_read_list (reader : BlendDataReader) (listFirst : Option Nat) :
    List (List Int) :=
  readListAux reader.records reader.records.length listFirst

/-- Reverses each four byte group, the in place element swap of an int32
buffer whose byte order differs from the host. -/
def swap4 : List Nat → List Nat
  | b0 :: b1 :: b2 :: b3 :: rest => b3 :: b2 :: b1 :: b0 :: swap4 rest
  | l => l

/-- Reads an unsigned 32 bit value back as a signed int32. -/
def toInt32 (u : Nat) : Int :=
  if u < 2147483648 then (u : Int) else (u : Int) - 4294967296

/-- Recombines four bytes into an unsigned 32 bit value in the given order. -/
def decode4 (bigEndian : Bool) (b0 b1 b2 b3 : Nat) : Nat :=
  if bigEndian then ((b0 * 256 + b1) * 256 + b2) * 256 + b3
  else b0 + 256 * (b1 + 256 * (b2 + 256 * b3))

/-- Deserializes a byte buffer as an int32 array in the given byte order. -/
def decodeInt32Array (bigEndian : Bool) : List Nat → List Int
  | b0 :: b1 :: b2 :: b3 :: rest =>
    toInt32 (decode4 bigEndian b0 b1 b2 b3) :: decodeInt32Array bigEndian rest
  | _ => []

/-- Modelled from the spec: BLO_read_int32_array resolves the stored identity
to the reconstructed buffer, byte swaps every element in place when the file
byte order differs from the host, and reinterprets the buffer in host byte
order. -/
def BLO_read_int32_array (reader : BlendDataReader) (arraySize : Nat)
    (oldAddress : Nat) : Option (List Int) :=
  match lookupRecord reader.records oldAddress with
  | some ⟨_, _, Payload.raw bytes⟩ =>
    let hostBytes := if BLO_read_requires_endian_switch reader then swap4 bytes else bytes
    some ((decodeInt32Array reader.hostBigEndian hostBytes).take arraySize)
  | _ => none

/-! ## Library reader model -/

/-- Modelled from the spec: the outcome of resolving a cross document
reference: a live entity handle, the stable missing reference marker for a
deliberately excluded target, or a placeholder queued for retry. -/
inductive IdResolveResult where
  | handle (h : Nat)
  | missing
  | placeholder
deriving DecidableEq

/-- Modelled from the spec: the BlendLibReader session state: the identity
registry keyed by entity name and owning document, the references excluded
from loading, and the references pending retry once their document becomes
available. -/
structure BlendLibReader where
  registry : List ((String × Nat) × Nat)
  excluded : List (String × Nat)
  pending : List (String × Nat)
deriving DecidableEq

/-- Modelled from the spec: BLO_read_get_new_id_address looks the reference up
in the identity registry; an excluded target resolves to the missing marker;
an unavailable target resolves to a placeholder and is queued for retry,
without queueing duplicates. -/
def BLO_read_get_new_id_address (reader : BlendLibReader) (lib : Nat)
    (idName : String) : IdResolveResult × BlendLibReader :=
  match reader.registry.lookup (idName, lib) with
  | some h => (IdResolveResult.handle h, reader)
  | none =>
    if (idName, lib) ∈ reader.excluded then
      (IdResolveResult.missing, reader)
    else if (idName, lib) ∈ reader.pending then
      (IdResolveResult.placeholder, reader)
    else
      (IdResolveResult.placeholder,
       { reader with pending := reader.pending ++ [(idName, lib)] })

/-! ## Expander model -/

/-- Modelled from the spec: the per entity state machine of the expansion
scheduler. -/
inductive ExpandState where
  | unvisited
  | queued
  | loading
  | resolved
  | failed
deriving DecidableEq

/-- Modelled from the spec: the BlendExpander session state: one state per top
level entity (indexed by entity number) and the worklist of queued
entities. -/
structure BlendExpander where
  states : List ExpandState
  worklist : List Nat
deriving DecidableEq

/-- Modelled from the spec: BLO_expand_id schedules one entity: the guard only
enqueues an unvisited entity, so the call is a no-op on an entity in any
other state. -/
def BLO_expand_id (e : BlendExpander) (i : Nat) : BlendExpander :=
  match e.states[i]? with
  | some ExpandState.unvisited =>
    { states := e.states.set i ExpandState.queued, worklist := e.worklist ++ [i] }
  | _ => e

/-- Schedules every entity of a reference list in turn. -/
def expandAll (e : BlendExpander) (ids : List Nat) : BlendExpander :=
  ids.foldl BLO_expand_id e

/-- Number of entities still unvisited. -/
def countUnvisited (states : List ExpandState) : Nat :=
  states.countP (fun s => s == ExpandState.unvisited)

/-- Fuel that bounds the worklist traversal: unvisited entities plus queued
work. -/
def expandFuel (e : BlendExpander) : Nat :=
  countUnvisited e.states + e.worklist.length

/-- Modelled from the spec: processing of one popped entity.  A queued entity
is loaded (the load oracle decides success), marked resolved or failed, and
every reference discovered in its fields is scheduled through BLO_expand_id;
an entity popped in any other state is dropped.  The graph gives the outgoing
references of each entity; the loading state is only transient inside this
atomic step. -/
def expandStep (loadOk : Nat → Bool) (graph : List (List Nat)) (e : BlendExpander)
    (i : Nat) (rest : List Nat) : BlendExpander :=
  match e.states[i]? with
  | some ExpandState.queued =>
    expandAll
      ⟨e.states.set i (if loadOk i then ExpandState.resolved else ExpandState.failed), rest⟩
      (graph.getD i [])
  | _ => ⟨e.states, rest⟩

/-- Modelled from the spec: the worklist traversal driving a whole expansion:
pop entities until the worklist is empty, processing each popped entity with
one expansion step. -/
def expandLoop (loadOk : Nat → Bool) (graph : List (List Nat)) :
    Nat → BlendExpander → BlendExpander
  | 0, e => e
  | fuel + 1, e =>
    match e.worklist with
    | [] => e
    | i :: rest => expandLoop loadOk graph fuel (expandStep loadOk graph e i rest)

/-- The initial expander state of a session: every entity unvisited, nothing
queued. -/
def initExpander (graph : List (List Nat)) : BlendExpander :=
  ⟨List.replicate graph.length ExpandState.unvisited, []⟩

/-- Runs a whole expansion session: all entities start unvisited, the roots
are scheduled, and the worklist is drained. -/
def runExpansion (loadOk : Nat → Bool) (graph : List (List Nat))
    (roots : List Nat) : BlendExpander :=
  let e0 := expandAll (initExpander graph) roots
  expandLoop loadOk graph (expandFuel e0) e0

/-- Reachability in the reference graph from the root entities. -/
inductive Reachable (graph : List (List Nat)) (roots : List Nat) : Nat → Prop where
  | root (i : Nat) : i ∈ roots → i < graph.length → Reachable graph roots i
  | step (i j : Nat) : Reachable graph roots i → j ∈ graph.getD i [] →
      j < graph.length → Reachable graph roots j

/-! ## Well formed linked lists -/

/-- Checks that the stored next pointers chain the nodes head to tail and the
last node ends the chain. -/
def chainOk : List SrcNode → Bool
  | [] => true
  | [n] => n.next == none
  | n :: m :: rest => n.next == some m.addr && chainOk (m :: rest)

/-! ## Helper lemmas -/

/-- A name lookup in an association list with distinct keys finds the stored
value of a member entry. -/
theorem lookup_eq_some_of_mem {cat : List (String × Nat)} {n : String} {i : Nat}
    (hnd : (cat.map Prod.fst).Nodup) (hmem : (n, i) ∈ cat) :
    cat.lookup n = some i := by
  induction cat with
  | nil => cases hmem
  | cons p rest ih =>
    obtain ⟨k, v⟩ := p
    rcases List.mem_cons.mp hmem with h | h
    · rw [← h]
      simp [List.lookup_cons]
    · have hne : n ≠ k := by
        intro heq
        have hmem2 : n ∈ rest.map Prod.fst := List.mem_map.mpr ⟨(n, i), h, rfl⟩
        rw [heq] at hmem2
        exact (List.nodup_cons.mp (by simpa using hnd)).1 hmem2
      have hb : (n == k) = false := by simpa using hne
      rw [List.lookup_cons]
      rw [hb]
      exact ih (List.nodup_cons.mp (by simpa using hnd)).2 h

/-- A name lookup in an association list fails when no entry carries the
name. -/
theorem lookup_eq_none_of_not_mem {cat : List (String × Nat)} {n : String}
    (h : n ∉ cat.map Prod.fst) : cat.lookup n = none := by
  rw [List.lookup_eq_none_iff]
  intro p hp
  have hne : n ≠ p.1 := by
    intro heq
    have hmem2 : n ∈ cat.map Prod.fst := by
      rw [heq]
      exact List.mem_map.mpr ⟨p, hp, rfl⟩
    exact h hmem2
  simpa using hne

/-! ## Claim theorems for the simulation modifier -/

/-- C9: modifyPointCloud of the Simulation modifier returns exactly the input
PointCloud handle and leaves both the pointcloud and the modifier data
unmodified, for every modifier data and every input PointCloud. -/
theorem modifyPointCloud_identity (md : SimulationModifierData)
    (ctx : ModifierEvalContext) (pointcloud : PointCloud) :
    (modifyPointCloud md ctx pointcloud).1 = pointcloud ∧
    (modifyPointCloud md ctx pointcloud).2.1 = md ∧
    (modifyPointCloud md ctx pointcloud).2.2 = pointcloud :=
  ⟨rfl, rfl, rfl⟩

/-- C10: isDisabled of the Simulation modifier returns true exactly when the
simulation pointer is null, and the scene and useRenderParams arguments never
influence the result. -/
theorem isDisabled_iff_simulation_null (scene : Option Scene)
    (md : SimulationModifierData) (useRenderParams : Bool) :
    (isDisabled scene md useRenderParams = true ↔ md.simulation = none) ∧
    (∀ (scene2 : Option Scene) (useRenderParams2 : Bool),
      isDisabled scene md useRenderParams = isDisabled scene2 md useRenderParams2) := by
  refine ⟨?_, fun scene2 useRenderParams2 => rfl⟩
  simp [isDisabled, Option.isNone_iff_eq_none]

/-! ## Claim theorems for the writer -/

/-- C7: resolving a struct name that is not in the type catalog fails with
UnknownStruct and this failure is fatal to the write call that triggered it;
resolving a name present in the catalog returns that structs id. -/
theorem struct_id_lookup_unknown_fatal (writer : BlendWriter) (structName : String) :
    (structName ∉ writer.catalog.map Prod.fst →
      BLO_get_struct_id_by_name writer structName = Except.error WriteError.unknownStruct ∧
      ∀ dataPtr, BLO_write_struct_by_name writer structName dataPtr =
        Except.error WriteError.unknownStruct) ∧
    ((writer.catalog.map Prod.fst).Nodup →
      ∀ structId, (structName, structId) ∈ writer.catalog →
        BLO_get_struct_id_by_name writer structName = Except.ok structId) := by
  constructor
  · intro habs
    have hl : writer.catalog.lookup structName = none := lookup_eq_none_of_not_mem habs
    have hid : BLO_get_struct_id_by_name writer structName =
        Except.error WriteError.unknownStruct := by
      simp [BLO_get_struct_id_by_name, hl]
    refine ⟨hid, fun dataPtr => ?_⟩
    simp [BLO_write_struct_by_name, hid]
  · intro hnd structId hmem
    have hl : writer.catalog.lookup structName = some structId :=
      lookup_eq_some_of_mem hnd hmem
    simp [BLO_get_struct_id_by_name, hl]

/-- Witness for C7 on a concrete catalog: an absent name is fatal, a present
name resolves to its id. -/
theorem struct_id_lookup_witness :
    BLO_get_struct_id_by_name ⟨[("Mesh", 3)], false, false, []⟩ "Lattice" =
      Except.error WriteError.unknownStruct ∧
    BLO_get_struct_id_by_name ⟨[("Mesh", 3)], false, false, []⟩ "Mesh" =
      Except.ok 3 :=
  ⟨((struct_id_lookup_unknown_fatal ⟨[("Mesh", 3)], false, false, []⟩ "Lattice").1
      (by decide)).1,
   (struct_id_lookup_unknown_fatal ⟨[("Mesh", 3)], false, false, []⟩ "Mesh").2
      (by decide) 3 (by decide)⟩

/-- C8: every write entry point treats a null data pointer as a no-op: no
Record is appended and the writer state is unchanged. -/
theorem null_data_write_is_noop (writer : BlendWriter)
    (structId arraySize sizeInBytes size : Nat) (idData : SrcNode) :
    BLO_write_struct_by_id writer structId none = writer ∧
    BLO_write_struct_array_by_id writer structId arraySize none = writer ∧
    BLO_write_struct_list_by_id writer structId none = writer ∧
    blo_write_id_struct writer structId none idData = writer ∧
    BLO_write_raw writer sizeInBytes none = writer ∧
    BLO_write_int32_array writer size none = writer ∧
    BLO_write_uint32_array writer size none = writer ∧
    BLO_write_float_array writer size none = writer ∧
    BLO_write_float3_array writer size none = writer ∧
    BLO_write_string writer none = writer :=
  ⟨rfl, rfl, rfl, rfl, rfl, rfl, rfl, rfl, rfl, rfl⟩

/-! ## Claim theorems for the data reader -/

/-- C3: resolving an old address that was never registered in the read session
does not fail hard: the resolver returns the sentinel none and leaves the
caller to interpret the pointer. -/
theorem data_address_unregistered_returns_sentinel (reader : BlendDataReader)
    (oldAddress : Nat) (h : ∀ r ∈ reader.records, r.identity ≠ oldAddress) :
    (BLO_read_get_new_data_address reader oldAddress).1 = none := by
  have hfind : reader.records.findIdx? (fun r => r.identity == oldAddress) = none := by
    rw [List.findIdx?_eq_none_iff]
    intro r hr
    simpa using h r hr
  unfold BLO_read_get_new_data_address
  rw [hfind]
  by_cases hd : oldAddress ∈ reader.deferredToLib <;> simp [hd]

/-- Witness for C3: a session holding one record under identity 5 resolves the
unregistered identity 7 to the sentinel none. -/
theorem data_address_unregistered_witness :
    (BLO_read_get_new_data_address
      ⟨[⟨some 1, 5, Payload.raw [0]⟩], false, false, [], []⟩ 7).1 = none :=
  data_address_unregistered_returns_sentinel
    ⟨[⟨some 1, 5, Payload.raw [0]⟩], false, false, [], []⟩ 7 (by decide)

/-- C4: an identity never seen in the session and not deferred to the library
reader is reported as a data corruption error in the session state rather
than silently producing only a null pointer. -/
theorem data_address_corruption_reported (reader : BlendDataReader)
    (oldAddress : Nat) (h : ∀ r ∈ reader.records, r.identity ≠ oldAddress)
    (hdef : oldAddress ∉ reader.deferredToLib) :
    (BLO_read_get_new_data_address reader oldAddress).2.errors =
      reader.errors ++ [ReadError.unresolvedLocalPointer oldAddress] := by
  have hfind : reader.records.findIdx? (fun r => r.identity == oldAddress) = none := by
    rw [List.findIdx?_eq_none_iff]
    intro r hr
    simpa using h r hr
  unfold BLO_read_get_new_data_address
  rw [hfind]
  simp [hdef]

/-- Witness for C4: resolving the unregistered, undeferred identity 7 reports
an UnresolvedLocalPointer error in the session state. -/
theorem data_address_corruption_witness :
    (BLO_read_get_new_data_address
      ⟨[⟨some 1, 5, Payload.raw [0]⟩], false, false, [9], []⟩ 7).2.errors =
      [ReadError.unresolvedLocalPointer 7] :=
  data_address_corruption_reported
    ⟨[⟨some 1, 5, Payload.raw [0]⟩], false, false, [9], []⟩ 7 (by decide) (by decide)

/-! ## Claim theorem for the library reader -/

/-- C6: cross document reference resolution is idempotent: resolving the same
library and id pair twice in one session returns the same outcome both times
and leaves the session state unchanged after the first call. -/
theorem id_address_resolution_idempotent (reader : BlendLibReader) (lib : Nat)
    (idName : String) :
    BLO_read_get_new_id_address (BLO_read_get_new_id_address reader lib idName).2 lib idName
      = BLO_read_get_new_id_address reader lib idName := by
  unfold BLO_read_get_new_id_address
  cases hl : reader.registry.lookup (idName, lib) with
  | some h => simp [hl]
  | none =>
    by_cases hex : (idName, lib) ∈ reader.excluded
    · simp [hl, hex]
    · by_cases hp : (idName, lib) ∈ reader.pending
      · simp [hl, hex, hp]
      · simp [hl, hex, hp]

/-! ## Endianness lemmas -/

/-- The truncated unsigned representative of an int32 fits in 32 bits. -/
theorem toUInt32_lt (v : Int) : toUInt32 v < 4294967296 := by
  unfold toUInt32
  omega

/-- Decoding an encoded int32 array in the byte order it was encoded in
restores the truncated values. -/
theorem decodeInt32Array_encode (be : Bool) (vs : List Int) :
    decodeInt32Array be (encodeInt32Array be vs) =
      vs.map (fun v => toInt32 (toUInt32 v)) := by
  induction vs with
  | nil => cases be <;> rfl
  | cons v vs ih =>
    have hu : toUInt32 v < 4294967296 := toUInt32_lt v
    cases be
    · have harith :
          decode4 false (toUInt32 v % 256) (toUInt32 v / 256 % 256)
            (toUInt32 v / 65536 % 256) (toUInt32 v / 16777216 % 256) = toUInt32 v := by
        simp only [decode4, if_neg Bool.false_ne_true, Bool.false_eq_true, if_false]
        omega
      simp only [encodeInt32Array, bytes4, Bool.false_eq_true, if_false,
        List.cons_append, List.nil_append, decodeInt32Array, harith, ih, List.map_cons]
      simpa using ih
    · have harith :
          decode4 true (toUInt32 v / 16777216 % 256) (toUInt32 v / 65536 % 256)
            (toUInt32 v / 256 % 256) (toUInt32 v % 256) = toUInt32 v := by
        simp only [decode4, if_true]
        omega
      simp only [encodeInt32Array, bytes4, if_true, List.cons_append, List.nil_append,
        decodeInt32Array, harith, ih, List.map_cons]
      simpa using ih

/-- Swapping every four byte element of an encoded int32 array converts it to
the opposite byte order. -/
theorem swap4_encode (be : Bool) (vs : List Int) :
    swap4 (encodeInt32Array be vs) = encodeInt32Array (!be) vs := by
  induction vs with
  | nil => cases be <;> rfl
  | cons v vs ih =>
    cases be
    · simp only [encodeInt32Array, bytes4, Bool.false_eq_true, if_false, Bool.not_false,
        if_true, List.cons_append, List.nil_append, swap4]
      simpa using ih
    · simp only [encodeInt32Array, bytes4, Bool.not_true, Bool.false_eq_true, if_false,
        if_true, List.cons_append, List.nil_append, swap4]
      simpa using ih

/-- Reading an int32 array back from the record its write produced restores
the truncated element values, whatever byte orders the producing session and
the consuming host use. -/
theorem read_write_int32 (catalog : List (String × Nat)) (undo : Bool)
    (vs : List Int) (addr : Nat) (fileBE hostBE : Bool) (deferred : List Nat) :
    BLO_read_int32_array
        (mkDataReader
          (BLO_write_int32_array ⟨catalog, fileBE, undo, []⟩ vs.length (some (addr, vs)))
          hostBE deferred)
        vs.length addr
      = some (vs.map (fun v => toInt32 (toUInt32 v))) := by
  have hrec :
      (BLO_write_int32_array ⟨catalog, fileBE, undo, []⟩ vs.length (some (addr, vs))).records
        = [⟨none, addr, Payload.raw (encodeInt32Array fileBE vs)⟩] := by
    simp [BLO_write_int32_array, List.take_length]
  have hlook :
      lookupRecord [(⟨none, addr, Payload.raw (encodeInt32Array fileBE vs)⟩ : Record)] addr
        = some ⟨none, addr, Payload.raw (encodeInt32Array fileBE vs)⟩ := by
    simp [lookupRecord, List.find?]
  have hbig :
      (BLO_write_int32_array ⟨catalog, fileBE, undo, []⟩ vs.length (some (addr, vs))).bigEndian
        = fileBE := by
    simp [BLO_write_int32_array]
  unfold BLO_read_int32_array
  simp only [mkDataReader, hrec, hlook, hbig, BLO_read_requires_endian_switch]
  by_cases h : fileBE = hostBE
  · subst h
    simp only [bne_self_eq_false, Bool.false_eq_true, if_false]
    rw [decodeInt32Array_encode]
    rw [← List.length_map vs (fun v => toInt32 (toUInt32 v)), List.take_length]
  · have hb : (fileBE != hostBE) = true := by
      simpa using h
    have hnot : (!fileBE) = hostBE := by
      cases fileBE <;> cases hostBE <;> simp_all
    simp only [hb, if_true]
    rw [swap4_encode, hnot, decodeInt32Array_encode]
    rw [← List.length_map vs (fun v => toInt32 (toUInt32 v)), List.take_length]

/-- C2: an int32 array read back through BLO_read_int32_array after a write on
a session whose recorded byte order differs from the host yields element for
element the same values as a same endianness write and read; in particular
the array 1, 256, 65536 written big endian and read on a little endian host
is restored exactly. -/
theorem int32_array_endian_transcode (catalog : List (String × Nat)) (undo : Bool)
    (vs : List Int) (addr : Nat) (fileBE hostBE : Bool) (deferred : List Nat) :
    (BLO_read_int32_array
        (mkDataReader
          (BLO_write_int32_array ⟨catalog, fileBE, undo, []⟩ vs.length (some (addr, vs)))
          hostBE deferred)
        vs.length addr
      = BLO_read_int32_array
        (mkDataReader
          (BLO_write_int32_array ⟨catalog, hostBE, undo, []⟩ vs.length (some (addr, vs)))
          hostBE deferred)
        vs.length addr) ∧
    BLO_read_int32_array
        (mkDataReader
          (BLO_write_int32_array ⟨[], true, false, []⟩ 3 (some (1000, [1, 256, 65536])))
          false [])
        3 1000
      = some [1, 256, 65536] := by
  constructor
  · rw [read_write_int32, read_write_int32]
  · have h := read_write_int32 [] false [1, 256, 65536] 1000 true false []
    simpa using h

/-! ## List round trip lemmas -/

/-- Looking a node address up in the records of a struct list write finds the
record of that node when the node addresses are distinct. -/
theorem lookupRecord_writeList {structId : Nat} {nodes : List SrcNode} {n : SrcNode}
    (hnd : (nodes.map SrcNode.addr).Nodup) (hmem : n ∈ nodes) :
    lookupRecord (writeListRecords structId nodes) n.addr
      = some ⟨some structId, n.addr, Payload.fields n.vals n.next⟩ := by
  induction nodes with
  | nil => cases hmem
  | cons m rest ih =>
    rcases List.mem_cons.mp hmem with h | h
    · subst h
      simp [lookupRecord, writeListRecords, List.find?]
    · have hne : m.addr ≠ n.addr := by
        intro heq
        have hmem2 : m.addr ∈ rest.map SrcNode.addr := by
          rw [heq]
          exact List.mem_map.mpr ⟨n, h, rfl⟩
        exact (List.nodup_cons.mp (by simpa using hnd)).1 hmem2
      have hb : (m.addr == n.addr) = false := by simpa using hne
      have ihr := ih (List.nodup_cons.mp (by simpa using hnd)).2 h
      simpa [lookupRecord, writeListRecords, List.find?_cons, hb] using ihr

/-- The struct payload resolved for a node address of a struct list write is
the field values and stored next pointer of that node. -/
theorem structPayload_writeList {structId : Nat} {nodes : List SrcNode} {n : SrcNode}
    (hnd : (nodes.map SrcNode.addr).Nodup) (hmem : n ∈ nodes) :
    structPayload (writeListRecords structId nodes) n.addr = some (n.vals, n.next) := by
  rw [structPayload, lookupRecord_writeList hnd hmem]

/-- A read walk from a null head pointer yields the empty list. -/
theorem readListAux_none (records : List Record) (fuel : Nat) :
    readListAux records fuel none = [] := by
  cases fuel <;> rfl

/-- A read walk step from a resolvable address prepends its field values and
continues at the stored next pointer. -/
theorem readListAux_some (records : List Record) (fuel : Nat) (a : Nat)
    (vals : List Int) (nxt : Option Nat)
    (h : structPayload records a = some (vals, nxt)) :
    readListAux records (fuel + 1) (some a) = vals :: readListAux records fuel nxt := by
  rw [readListAux, h]

/-- Following a well chained node list through any record store that resolves
each node correctly reproduces the field values in order, given enough
fuel. -/
theorem readListAux_chain (records : List Record) (nodes : List SrcNode)
    (H : ∀ n ∈ nodes, structPayload records n.addr = some (n.vals, n.next))
    (hchain : chainOk nodes = true) :
    ∀ fuel, nodes.length ≤ fuel →
      readListAux records fuel (nodes.head?.map SrcNode.addr) = nodes.map SrcNode.vals := by
  induction nodes with
  | nil =>
    intro fuel hfuel
    simp [readListAux_none]
  | cons n rest ih =>
    intro fuel hfuel
    obtain ⟨f, rfl⟩ : ∃ f, fuel = f + 1 := ⟨fuel - 1, by simp at hfuel; omega⟩
    have hn := H n (List.mem_cons_self n rest)
    show readListAux records (f + 1) (some n.addr) = n.vals :: rest.map SrcNode.vals
    rw [readListAux_some records f n.addr n.vals n.next hn]
    cases rest with
    | nil =>
      have hnone : n.next = none := by simpa [chainOk] using hchain
      rw [hnone, readListAux_none]
      rfl
    | cons m rest2 =>
      have hc := hchain
      simp only [chainOk, Bool.and_eq_true, beq_iff_eq] at hc
      have hH2 : ∀ x ∈ m :: rest2, structPayload records x.addr = some (x.vals, x.next) :=
        fun x hx => H x (List.mem_cons_of_mem n hx)
      have hlen : (m :: rest2).length ≤ f := by simp at hfuel ⊢; omega
      have hrec := ih hH2 hc.2 f hlen
      simp only [List.head?_cons, Option.map_some'] at hrec
      rw [hc.1, hrec]

/-- C1: writing a linked list with BLO_write_struct_list_by_id and reading it
back with BLO_read_list yields a list with the same number of nodes, in the
same head to tail order, with each nodes field values equal to those of the
corresponding source node, for every well chained list with distinct node
addresses. -/
theorem list_roundtrip_preserves_order_and_fields
    (catalog : List (String × Nat)) (be undo : Bool) (structId : Nat)
    (nodes : List SrcNode) (hostBE : Bool) (deferred : List Nat)
    (hchain : chainOk nodes = true)
    (hnd : (nodes.map SrcNode.addr).Nodup) :
    BLO_read_list
        (mkDataReader (BLO_write_struct_list_by_id ⟨catalog, be, undo, []⟩ structId (some nodes))
          hostBE deferred)
        (nodes.head?.map SrcNode.addr)
      = nodes.map SrcNode.vals := by
  have hrecords :
      (BLO_write_struct_list_by_id ⟨catalog, be, undo, []⟩ structId (some nodes)).records
        = writeListRecords structId nodes := by
    simp [BLO_write_struct_list_by_id]
  have hlen : nodes.length ≤ (writeListRecords structId nodes).length := by
    simp [writeListRecords]
  unfold BLO_read_list
  simp only [mkDataReader, hrecords]
  exact readListAux_chain (writeListRecords structId nodes) nodes
    (fun n hmem => structPayload_writeList hnd hmem) hchain
    (writeListRecords structId nodes).length hlen

/-- Witness for C1 on a concrete five node list: the read walk reproduces the
five field value lists in order. -/
theorem list_roundtrip_witness :
    BLO_read_list
        (mkDataReader
          (BLO_write_struct_list_by_id ⟨[], false, false, []⟩ 7
            (some [⟨1, [10], some 2⟩, ⟨2, [20], some 3⟩, ⟨3, [30], some 4⟩,
                   ⟨4, [40], some 5⟩, ⟨5, [50], none⟩]))
          false [])
        (some 1)
      = [[10], [20], [30], [40], [50]] :=
  list_roundtrip_preserves_order_and_fields [] false false 7
    [⟨1, [10], some 2⟩, ⟨2, [20], some 3⟩, ⟨3, [30], some 4⟩,
     ⟨4, [40], some 5⟩, ⟨5, [50], none⟩] false [] (by decide) (by decide)

/-! ## Expander lemmas -/

/-- An index resolving to some element is inside the list. -/
theorem get?_some_lt {α : Type} {l : List α} {i : Nat} {a : α}
    (h : l[i]? = some a) : i < l.length := by
  by_contra hge
  rw [List.getElem?_eq_none (by omega)] at h
  cases h

/-- Overwriting one position shifts the predicate count by the contribution
of the old and new values. -/
theorem countP_set_add {α : Type} (p : α → Bool) (l : List α) (i : Nat) (a b : α)
    (h : l[i]? = some a) :
    (l.set i b).countP p + (if p a then 1 else 0)
      = l.countP p + (if p b then 1 else 0) := by
  induction l generalizing i with
  | nil => cases h
  | cons x xs ih =>
    cases i with
    | zero =>
      rw [List.getElem?_cons_zero] at h
      cases h
      rw [List.set_cons_zero, List.countP_cons, List.countP_cons]
      omega
    | succ n =>
      rw [List.getElem?_cons_succ] at h
      rw [List.set_cons_succ, List.countP_cons, List.countP_cons]
      have := ih n h
      omega

/-- BLO_expand_id either queues an unvisited entity or changes nothing. -/
theorem expand_cases (e : BlendExpander) (i : Nat) :
    (e.states[i]? = some ExpandState.unvisited ∧
      BLO_expand_id e i =
        ⟨e.states.set i ExpandState.queued, e.worklist ++ [i]⟩) ∨
    (e.states[i]? ≠ some ExpandState.unvisited ∧ BLO_expand_id e i = e) := by
  unfold BLO_expand_id
  cases h : e.states[i]? with
  | none => exact Or.inr ⟨by simp, rfl⟩
  | some s =>
    cases s with
    | unvisited => exact Or.inl ⟨rfl, rfl⟩
    | queued => exact Or.inr ⟨by simp [h], rfl⟩
    | loading => exact Or.inr ⟨by simp [h], rfl⟩
    | resolved => exact Or.inr ⟨by simp [h], rfl⟩
    | failed => exact Or.inr ⟨by simp [h], rfl⟩

/-- BLO_expand_id never changes the number of entity states. -/
theorem expand_length (e : BlendExpander) (i : Nat) :
    (BLO_expand_id e i).states.length = e.states.length := by
  rcases expand_cases e i with ⟨_, heq⟩ | ⟨_, heq⟩ <;> rw [heq]
  exact List.length_set e.states i ExpandState.queued

/-- BLO_expand_id preserves the expansion fuel: queueing an entity trades one
unvisited state for one worklist entry. -/
theorem expand_fuel (e : BlendExpander) (i : Nat) :
    expandFuel (BLO_expand_id e i) = expandFuel e := by
  rcases expand_cases e i with ⟨hu, heq⟩ | ⟨_, heq⟩ <;> rw [heq]
  have key := countP_set_add (fun s => s == ExpandState.unvisited) e.states i
    ExpandState.unvisited ExpandState.queued hu
  simp only [expandFuel, countUnvisited, List.length_append, List.length_cons,
    List.length_nil]
  simp at key
  omega

/-- BLO_expand_id never makes a state unvisited. -/
theorem expand_nonunvisited (e : BlendExpander) (i j : Nat)
    (h : e.states[j]? ≠ some ExpandState.unvisited) :
    (BLO_expand_id e i).states[j]? ≠ some ExpandState.unvisited := by
  rcases expand_cases e i with ⟨hu, heq⟩ | ⟨_, heq⟩ <;> rw [heq]
  · by_cases hij : i = j
    · subst hij
      rw [List.getElem?_set_self (get?_some_lt hu)]
      simp
    · rw [List.getElem?_set_ne hij]
      exact h
  · exact h

/-- After BLO_expand_id on an entity, that entity is never unvisited. -/
theorem expand_target_nonunvisited (e : BlendExpander) (i : Nat) :
    (BLO_expand_id e i).states[i]? ≠ some ExpandState.unvisited := by
  rcases expand_cases e i with ⟨hu, heq⟩ | ⟨hnu, heq⟩ <;> rw [heq]
  · rw [List.getElem?_set_self (get?_some_lt hu)]
    simp
  · exact hnu

/-- BLO_expand_id never produces the loading state. -/
theorem expand_noload (e : BlendExpander) (i : Nat)
    (h : ∀ k : Nat, e.states[k]? ≠ some ExpandState.loading) :
    ∀ k : Nat, (BLO_expand_id e i).states[k]? ≠ some ExpandState.loading := by
  intro k
  rcases expand_cases e i with ⟨hu, heq⟩ | ⟨_, heq⟩ <;> rw [heq]
  · by_cases hik : i = k
    · subst hik
      rw [List.getElem?_set_self (get?_some_lt hu)]
      simp
    · rw [List.getElem?_set_ne hik]
      exact h k
  · exact h k

/-- A state that is resolved or failed after BLO_expand_id already was so
before, since the call only creates the queued state. -/
theorem expand_resolved_rev (e : BlendExpander) (i k : Nat)
    (h : (BLO_expand_id e i).states[k]? = some ExpandState.resolved ∨
         (BLO_expand_id e i).states[k]? = some ExpandState.failed) :
    e.states[k]? = some ExpandState.resolved ∨
    e.states[k]? = some ExpandState.failed := by
  rcases expand_cases e i with ⟨hu, heq⟩ | ⟨_, heq⟩ <;> rw [heq] at h
  · by_cases hik : i = k
    · subst hik
      rw [List.getElem?_set_self (get?_some_lt hu)] at h
      rcases h with h | h <;> cases h
    · rw [List.getElem?_set_ne hik] at h
      exact h
  · exact h

/-- Every queued entity stays on the worklist through BLO_expand_id. -/
theorem expand_queued_in_wl (e : BlendExpander) (i : Nat)
    (h : ∀ k : Nat, e.states[k]? = some ExpandState.queued → k ∈ e.worklist) :
    ∀ k : Nat, (BLO_expand_id e i).states[k]? = some ExpandState.queued →
      k ∈ (BLO_expand_id e i).worklist := by
  intro k hk
  rcases expand_cases e i with ⟨hu, heq⟩ | ⟨_, heq⟩ <;> rw [heq] at hk ⊢
  · by_cases hik : i = k
    · subst hik
      exact List.mem_append.mpr (Or.inr (List.mem_singleton.mpr rfl))
    · rw [List.getElem?_set_ne hik] at hk
      exact List.mem_append.mpr (Or.inl (h k hk))
  · exact h k hk

/-- Scheduling a reference list never changes the number of entity states. -/
theorem expandAll_length (ids : List Nat) :
    ∀ e : BlendExpander, (expandAll e ids).states.length = e.states.length := by
  induction ids with
  | nil => intro e; rfl
  | cons i ids ih =>
    intro e
    rw [expandAll, List.foldl_cons]
    have := ih (BLO_expand_id e i)
    rw [expandAll] at this
    rw [this, expand_length]

/-- Scheduling a reference list preserves the expansion fuel. -/
theorem expandAll_fuel (ids : List Nat) :
    ∀ e : BlendExpander, expandFuel (expandAll e ids) = expandFuel e := by
  induction ids with
  | nil => intro e; rfl
  | cons i ids ih =>
    intro e
    rw [expandAll, List.foldl_cons]
    have := ih (BLO_expand_id e i)
    rw [expandAll] at this
    rw [this, expand_fuel]

/-- Scheduling a reference list never makes a state unvisited. -/
theorem expandAll_nonunvisited (ids : List Nat) :
    ∀ (e : BlendExpander) (j : Nat), e.states[j]? ≠ some ExpandState.unvisited →
      (expandAll e ids).states[j]? ≠ some ExpandState.unvisited := by
  induction ids with
  | nil => intro e j h; exact h
  | cons i ids ih =>
    intro e j h
    rw [expandAll, List.foldl_cons]
    exact ih (BLO_expand_id e i) j (expand_nonunvisited e i j h)

/-- Every entity of a scheduled reference list ends non unvisited. -/
theorem expandAll_mem_nonunvisited (ids : List Nat) :
    ∀ (e : BlendExpander) (j : Nat), j ∈ ids →
      (expandAll e ids).states[j]? ≠ some ExpandState.unvisited := by
  induction ids with
  | nil => intro e j h; cases h
  | cons i ids ih =>
    intro e j h
    rw [expandAll, List.foldl_cons]
    rcases List.mem_cons.mp h with h | h
    · subst h
      exact expandAll_nonunvisited ids (BLO_expand_id e j) j
        (expand_target_nonunvisited e j)
    · exact ih (BLO_expand_id e i) j h

/-- Scheduling a reference list keeps every queued entity on the worklist. -/
theorem expandAll_queued_in_wl (ids : List Nat) :
    ∀ e : BlendExpander,
      (∀ k : Nat, e.states[k]? = some ExpandState.queued → k ∈ e.worklist) →
      ∀ k : Nat, (expandAll e ids).states[k]? = some ExpandState.queued →
        k ∈ (expandAll e ids).worklist := by
  induction ids with
  | nil => intro e h; exact h
  | cons i ids ih =>
    intro e h
    rw [expandAll, List.foldl_cons]
    exact ih (BLO_expand_id e i) (expand_queued_in_wl e i h)

/-- Scheduling a reference list never produces the loading state. -/
theorem expandAll_noload (ids : List Nat) :
    ∀ e : BlendExpander, (∀ k : Nat, e.states[k]? ≠ some ExpandState.loading) →
      ∀ k : Nat, (expandAll e ids).states[k]? ≠ some ExpandState.loading := by
  induction ids with
  | nil => intro e h; exact h
  | cons i ids ih =>
    intro e h
    rw [expandAll, List.foldl_cons]
    exact ih (BLO_expand_id e i) (expand_noload e i h)

/-- A state resolved or failed after scheduling a reference list already was
so before. -/
theorem expandAll_resolved_rev (ids : List Nat) :
    ∀ (e : BlendExpander) (k : Nat),
      ((expandAll e ids).states[k]? = some ExpandState.resolved ∨
       (expandAll e ids).states[k]? = some ExpandState.failed) →
      (e.states[k]? = some ExpandState.resolved ∨
       e.states[k]? = some ExpandState.failed) := by
  induction ids with
  | nil => intro e k h; exact h
  | cons i ids ih =>
    intro e k h
    rw [expandAll, List.foldl_cons] at h
    exact expand_resolved_rev e i k (ih (BLO_expand_id e i) k h)

/-- The references of every resolved or failed entity have been scheduled:
none of them is still unvisited. -/
def ClosedRefs (graph : List (List Nat)) (e : BlendExpander) : Prop :=
  ∀ k : Nat,
    (e.states[k]? = some ExpandState.resolved ∨
     e.states[k]? = some ExpandState.failed) →
    ∀ j ∈ graph.getD k [], e.states[j]? ≠ some ExpandState.unvisited

/-- Scheduling a reference list preserves closedness of references. -/
theorem expandAll_closedRefs (graph : List (List Nat)) (ids : List Nat)
    (e : BlendExpander) (h : ClosedRefs graph e) :
    ClosedRefs graph (expandAll e ids) := by
  intro k hk j hj
  exact expandAll_nonunvisited ids e j (h k (expandAll_resolved_rev ids e k hk) j hj)

/-- One expansion step either processes a queued entity or drops the popped
entry. -/
theorem expandStep_cases (loadOk : Nat → Bool) (graph : List (List Nat))
    (e : BlendExpander) (i : Nat) (rest : List Nat) :
    (e.states[i]? = some ExpandState.queued ∧
      expandStep loadOk graph e i rest =
        expandAll
          ⟨e.states.set i (if loadOk i then ExpandState.resolved else ExpandState.failed),
           rest⟩
          (graph.getD i [])) ∨
    (e.states[i]? ≠ some ExpandState.queued ∧
      expandStep loadOk graph e i rest = ⟨e.states, rest⟩) := by
  unfold expandStep
  cases h : e.states[i]? with
  | none => exact Or.inr ⟨by simp, rfl⟩
  | some s =>
    cases s with
    | queued => exact Or.inl ⟨rfl, rfl⟩
    | unvisited => exact Or.inr ⟨by simp [h], rfl⟩
    | loading => exact Or.inr ⟨by simp [h], rfl⟩
    | resolved => exact Or.inr ⟨by simp [h], rfl⟩
    | failed => exact Or.inr ⟨by simp [h], rfl⟩

/-- One expansion step strictly consumes the popped worklist entry: the fuel
of the result is the fuel of the input without that entry. -/
theorem expandStep_fuel (loadOk : Nat → Bool) (graph : List (List Nat))
    (e : BlendExpander) (i : Nat) (rest : List Nat) :
    expandFuel (expandStep loadOk graph e i rest)
      = countUnvisited e.states + rest.length := by
  rcases expandStep_cases loadOk graph e i rest with ⟨hq, heq⟩ | ⟨_, heq⟩
  · rw [heq, expandAll_fuel]
    have key := countP_set_add (fun s => s == ExpandState.unvisited) e.states i
      ExpandState.queued (if loadOk i then ExpandState.resolved else ExpandState.failed) hq
    have key2 : List.countP (fun s => s == ExpandState.unvisited)
        (e.states.set i (if loadOk i then ExpandState.resolved else ExpandState.failed))
          = List.countP (fun s => s == ExpandState.unvisited) e.states := by
      cases hl : loadOk i <;> rw [hl] at key <;> simpa using key
    simp only [expandFuel, countUnvisited]
    rw [key2]
  · simp only [heq, expandFuel, countUnvisited]

/-- One expansion step never changes the number of entity states. -/
theorem expandStep_length (loadOk : Nat → Bool) (graph : List (List Nat))
    (e : BlendExpander) (i : Nat) (rest : List Nat) :
    (expandStep loadOk graph e i rest).states.length = e.states.length := by
  rcases expandStep_cases loadOk graph e i rest with ⟨_, heq⟩ | ⟨_, heq⟩ <;> rw [heq]
  rw [expandAll_length, List.length_set]

/-- One expansion step never makes a state unvisited. -/
theorem expandStep_nonunvisited (loadOk : Nat → Bool) (graph : List (List Nat))
    (e : BlendExpander) (i : Nat) (rest : List Nat) (j : Nat)
    (h : e.states[j]? ≠ some ExpandState.unvisited) :
    (expandStep loadOk graph e i rest).states[j]? ≠ some ExpandState.unvisited := by
  rcases expandStep_cases loadOk graph e i rest with ⟨hq, heq⟩ | ⟨_, heq⟩ <;> rw [heq]
  · apply expandAll_nonunvisited
    show (e.states.set i _)[j]? ≠ some ExpandState.unvisited
    by_cases hij : i = j
    · subst hij
      rw [List.getElem?_set_self (get?_some_lt hq)]
      cases loadOk i <;> simp
    · rw [List.getElem?_set_ne hij]
      exact h
  · exact h

/-- After one expansion step every queued entity is still on the worklist. -/
theorem expandStep_queued_in_wl (loadOk : Nat → Bool) (graph : List (List Nat))
    (e : BlendExpander) (i : Nat) (rest : List Nat)
    (h : ∀ k : Nat, e.states[k]? = some ExpandState.queued → k ∈ i :: rest) :
    ∀ k : Nat, (expandStep loadOk graph e i rest).states[k]? = some ExpandState.queued →
      k ∈ (expandStep loadOk graph e i rest).worklist := by
  rcases expandStep_cases loadOk graph e i rest with ⟨hq, heq⟩ | ⟨hnq, heq⟩ <;> rw [heq]
  · apply expandAll_queued_in_wl
    intro k hk
    show k ∈ rest
    by_cases hik : i = k
    · subst hik
      rw [List.getElem?_set_self (get?_some_lt hq)] at hk
      cases hl : loadOk i <;> rw [hl] at hk <;> cases hk
    · rw [List.getElem?_set_ne hik] at hk
      rcases List.mem_cons.mp (h k hk) with hki | hki
      · exact absurd hki.symm hik
      · exact hki
  · intro k hk
    show k ∈ rest
    rcases List.mem_cons.mp (h k hk) with hki | hki
    · subst hki
      exact absurd hk hnq
    · exact hki

/-- One expansion step never produces the loading state. -/
theorem expandStep_noload (loadOk : Nat → Bool) (graph : List (List Nat))
    (e : BlendExpander) (i : Nat) (rest : List Nat)
    (h : ∀ k : Nat, e.states[k]? ≠ some ExpandState.loading) :
    ∀ k : Nat, (expandStep loadOk graph e i rest).states[k]? ≠ some ExpandState.loading := by
  rcases expandStep_cases loadOk graph e i rest with ⟨hq, heq⟩ | ⟨_, heq⟩ <;> rw [heq]
  · apply expandAll_noload
    intro k
    by_cases hik : i = k
    · subst hik
      rw [List.getElem?_set_self (get?_some_lt hq)]
      cases loadOk i <;> simp
    · rw [List.getElem?_set_ne hik]
      exact h k
  · exact h

/-- One expansion step preserves closedness of references: the entity it marks
resolved or failed has just had all its references scheduled. -/
theorem expandStep_closedRefs (loadOk : Nat → Bool) (graph : List (List Nat))
    (e : BlendExpander) (i : Nat) (rest : List Nat)
    (h : ClosedRefs graph e) :
    ClosedRefs graph (expandStep loadOk graph e i rest) := by
  rcases expandStep_cases loadOk graph e i rest with ⟨hq, heq⟩ | ⟨_, heq⟩ <;> rw [heq]
  · intro k hk j hj
    have hk1 := expandAll_resolved_rev (graph.getD i [])
      ⟨e.states.set i (if loadOk i then ExpandState.resolved else ExpandState.failed), rest⟩
      k hk
    by_cases hik : i = k
    · subst hik
      exact expandAll_mem_nonunvisited (graph.getD i []) _ j hj
    · rw [List.getElem?_set_ne hik] at hk1
      apply expandAll_nonunvisited
      show (e.states.set i _)[j]? ≠ some ExpandState.unvisited
      by_cases hij : i = j
      · subst hij
        rw [List.getElem?_set_self (get?_some_lt hq)]
        cases loadOk i <;> simp
      · rw [List.getElem?_set_ne hij]
        exact h k hk1 j hj
  · exact h

/-- Unfolding reduction of the loop on an empty worklist. -/
theorem expandLoop_nil (loadOk : Nat → Bool) (graph : List (List Nat))
    (fuel : Nat) (e : BlendExpander) (hwl : e.worklist = []) :
    expandLoop loadOk graph fuel e = e := by
  cases fuel with
  | zero => rfl
  | succ f => rw [expandLoop, hwl]

/-- Unfolding reduction of the loop on a popped worklist entry. -/
theorem expandLoop_cons (loadOk : Nat → Bool) (graph : List (List Nat))
    (fuel : Nat) (e : BlendExpander) (i : Nat) (rest : List Nat)
    (hwl : e.worklist = i :: rest) :
    expandLoop loadOk graph (fuel + 1) e
      = expandLoop loadOk graph fuel (expandStep loadOk graph e i rest) := by
  rw [expandLoop, hwl]

/-- Termination of the worklist traversal: with fuel at least the number of
unvisited entities plus pending work, the loop drains the worklist. -/
theorem expandLoop_worklist_empty (loadOk : Nat → Bool) (graph : List (List Nat)) :
    ∀ (fuel : Nat) (e : BlendExpander), expandFuel e ≤ fuel →
      (expandLoop loadOk graph fuel e).worklist = [] := by
  intro fuel
  induction fuel with
  | zero =>
    intro e h
    have hlen : e.worklist.length = 0 := by
      unfold expandFuel at h
      omega
    have hwl := List.length_eq_zero.mp hlen
    rw [expandLoop_nil loadOk graph 0 e hwl]
    exact hwl
  | succ fuel ih =>
    intro e h
    cases hwl : e.worklist with
    | nil =>
      rw [expandLoop_nil loadOk graph (fuel + 1) e hwl]
      exact hwl
    | cons i rest =>
      rw [expandLoop_cons loadOk graph fuel e i rest hwl]
      apply ih
      rw [expandStep_fuel]
      have hfe : expandFuel e = countUnvisited e.states + rest.length + 1 := by
        unfold expandFuel
        rw [hwl]
        simp
        omega
      omega

/-- The loop never changes the number of entity states. -/
theorem expandLoop_length (loadOk : Nat → Bool) (graph : List (List Nat)) :
    ∀ (fuel : Nat) (e : BlendExpander),
      (expandLoop loadOk graph fuel e).states.length = e.states.length := by
  intro fuel
  induction fuel with
  | zero => intro e; rfl
  | succ fuel ih =>
    intro e
    cases hwl : e.worklist with
    | nil => rw [expandLoop_nil loadOk graph (fuel + 1) e hwl]
    | cons i rest =>
      rw [expandLoop_cons loadOk graph fuel e i rest hwl, ih,
        expandStep_length]

/-- The loop never makes a state unvisited. -/
theorem expandLoop_nonunvisited (loadOk : Nat → Bool) (graph : List (List Nat)) :
    ∀ (fuel : Nat) (e : BlendExpander) (j : Nat),
      e.states[j]? ≠ some ExpandState.unvisited →
      (expandLoop loadOk graph fuel e).states[j]? ≠ some ExpandState.unvisited := by
  intro fuel
  induction fuel with
  | zero => intro e j h; exact h
  | succ fuel ih =>
    intro e j h
    cases hwl : e.worklist with
    | nil =>
      rw [expandLoop_nil loadOk graph (fuel + 1) e hwl]
      exact h
    | cons i rest =>
      rw [expandLoop_cons loadOk graph fuel e i rest hwl]
      exact ih _ j (expandStep_nonunvisited loadOk graph e i rest j h)

/-- The loop never produces the loading state. -/
theorem expandLoop_noload (loadOk : Nat → Bool) (graph : List (List Nat)) :
    ∀ (fuel : Nat) (e : BlendExpander),
      (∀ k : Nat, e.states[k]? ≠ some ExpandState.loading) →
      ∀ k : Nat, (expandLoop loadOk graph fuel e).states[k]? ≠ some ExpandState.loading := by
  intro fuel
  induction fuel with
  | zero => intro e h; exact h
  | succ fuel ih =>
    intro e h
    cases hwl : e.worklist with
    | nil =>
      rw [expandLoop_nil loadOk graph (fuel + 1) e hwl]
      exact h
    | cons i rest =>
      rw [expandLoop_cons loadOk graph fuel e i rest hwl]
      exact ih _ (expandStep_noload loadOk graph e i rest h)

/-- The loop preserves closedness of references. -/
theorem expandLoop_closedRefs (loadOk : Nat → Bool) (graph : List (List Nat)) :
    ∀ (fuel : Nat) (e : BlendExpander), ClosedRefs graph e →
      ClosedRefs graph (expandLoop loadOk graph fuel e) := by
  intro fuel
  induction fuel with
  | zero => intro e h; exact h
  | succ fuel ih =>
    intro e h
    cases hwl : e.worklist with
    | nil =>
      rw [expandLoop_nil loadOk graph (fuel + 1) e hwl]
      exact h
    | cons i rest =>
      rw [expandLoop_cons loadOk graph fuel e i rest hwl]
      exact ih _ (expandStep_closedRefs loadOk graph e i rest h)

/-- The loop keeps every queued entity on the worklist. -/
theorem expandLoop_queued_in_wl (loadOk : Nat → Bool) (graph : List (List Nat)) :
    ∀ (fuel : Nat) (e : BlendExpander),
      (∀ k : Nat, e.states[k]? = some ExpandState.queued → k ∈ e.worklist) →
      ∀ k : Nat, (expandLoop loadOk graph fuel e).states[k]? = some ExpandState.queued →
        k ∈ (expandLoop loadOk graph fuel e).worklist := by
  intro fuel
  induction fuel with
  | zero => intro e h; exact h
  | succ fuel ih =>
    intro e h
    cases hwl : e.worklist with
    | nil =>
      rw [expandLoop_nil loadOk graph (fuel + 1) e hwl]
      exact h
    | cons i rest =>
      rw [expandLoop_cons loadOk graph fuel e i rest hwl]
      apply ih
      apply expandStep_queued_in_wl
      intro k hk
      rw [← hwl]
      exact h k hk

/-- C5: for every reference graph, including cyclic ones, the expansion
traversal driven by the worklist terminates with an empty worklist, every
reachable top level entity ends in the resolved or failed state, and
BLO_expand_id is a no-op on an entity already queued, loading or resolved. -/
theorem expansion_terminates_and_resolves (loadOk : Nat → Bool)
    (graph : List (List Nat)) (roots : List Nat) :
    (runExpansion loadOk graph roots).worklist = [] ∧
    (∀ i : Nat, Reachable graph roots i →
      (runExpansion loadOk graph roots).states[i]? = some ExpandState.resolved ∨
      (runExpansion loadOk graph roots).states[i]? = some ExpandState.failed) ∧
    (∀ (e : BlendExpander) (i : Nat),
      (e.states[i]? = some ExpandState.queued ∨
       e.states[i]? = some ExpandState.loading ∨
       e.states[i]? = some ExpandState.resolved) →
      BLO_expand_id e i = e) := by
  have hnoop : ∀ (e : BlendExpander) (i : Nat),
      (e.states[i]? = some ExpandState.queued ∨
       e.states[i]? = some ExpandState.loading ∨
       e.states[i]? = some ExpandState.resolved) →
      BLO_expand_id e i = e := by
    intro e i h
    rcases expand_cases e i with ⟨hu, _⟩ | ⟨_, heq⟩
    · rcases h with h | h | h <;> rw [h] at hu <;> simp at hu
    · exact heq
  have hrun : runExpansion loadOk graph roots
      = expandLoop loadOk graph (expandFuel (expandAll (initExpander graph) roots))
          (expandAll (initExpander graph) roots) := rfl
  have hinit_states : (initExpander graph).states
      = List.replicate graph.length ExpandState.unvisited := rfl
  have hinit_queued : ∀ k : Nat,
      (initExpander graph).states[k]? = some ExpandState.queued →
      k ∈ (initExpander graph).worklist := by
    intro k hk
    rw [hinit_states, List.getElem?_replicate] at hk
    split_ifs at hk <;> simp_all
  have hinit_noload : ∀ k : Nat,
      (initExpander graph).states[k]? ≠ some ExpandState.loading := by
    intro k
    rw [hinit_states, List.getElem?_replicate]
    split_ifs <;> simp
  have hinit_closed : ClosedRefs graph (initExpander graph) := by
    intro k hk j hj
    rw [hinit_states, List.getElem?_replicate] at hk
    rcases hk with hk | hk <;> split_ifs at hk <;> simp_all
  have he0_queued := expandAll_queued_in_wl roots (initExpander graph) hinit_queued
  have he0_noload := expandAll_noload roots (initExpander graph) hinit_noload
  have he0_closed := expandAll_closedRefs graph roots (initExpander graph) hinit_closed
  have he0_len : (expandAll (initExpander graph) roots).states.length = graph.length := by
    rw [expandAll_length, hinit_states]
    exact List.length_replicate _ _
  have hfin_empty : (runExpansion loadOk graph roots).worklist = [] := by
    rw [hrun]
    exact expandLoop_worklist_empty loadOk graph _ _ le_rfl
  have hfin_len : (runExpansion loadOk graph roots).states.length = graph.length := by
    rw [hrun, expandLoop_length]
    exact he0_len
  have hfin_noqueued : ∀ k : Nat,
      (runExpansion loadOk graph roots).states[k]? ≠ some ExpandState.queued := by
    intro k hk
    have hmem : k ∈ (runExpansion loadOk graph roots).worklist := by
      rw [hrun] at hk ⊢
      exact expandLoop_queued_in_wl loadOk graph _ _ he0_queued k hk
    rw [hfin_empty] at hmem
    cases hmem
  have hfin_noload : ∀ k : Nat,
      (runExpansion loadOk graph roots).states[k]? ≠ some ExpandState.loading := by
    rw [hrun]
    exact expandLoop_noload loadOk graph _ _ he0_noload
  have hfin_closed : ClosedRefs graph (runExpansion loadOk graph roots) := by
    rw [hrun]
    exact expandLoop_closedRefs loadOk graph _ _ he0_closed
  have hroots_nu : ∀ k : Nat, k ∈ roots →
      (runExpansion loadOk graph roots).states[k]? ≠ some ExpandState.unvisited := by
    intro k hkmem
    rw [hrun]
    exact expandLoop_nonunvisited loadOk graph _ _ k
      (expandAll_mem_nonunvisited roots (initExpander graph) k hkmem)
  have hclassify : ∀ k : Nat, k < graph.length →
      (runExpansion loadOk graph roots).states[k]? ≠ some ExpandState.unvisited →
      (runExpansion loadOk graph roots).states[k]? = some ExpandState.resolved ∨
      (runExpansion loadOk graph roots).states[k]? = some ExpandState.failed := by
    intro k hklt hnu
    have hk2 : k < (runExpansion loadOk graph roots).states.length := by
      rw [hfin_len]
      exact hklt
    obtain ⟨s, hs⟩ : ∃ s, (runExpansion loadOk graph roots).states[k]? = some s :=
      ⟨_, List.getElem?_eq_getElem hk2⟩
    cases s with
    | unvisited => exact absurd hs hnu
    | queued => exact absurd hs (hfin_noqueued k)
    | loading => exact absurd hs (hfin_noload k)
    | resolved => exact Or.inl hs
    | failed => exact Or.inr hs
  refine ⟨hfin_empty, ?_, hnoop⟩
  intro i hreach
  induction hreach with
  | root j hjmem hjlt => exact hclassify j hjlt (hroots_nu j hjmem)
  | step a b hra hbmem hblt ih => exact hclassify b hblt (hfin_closed a ih b hbmem)

/-- Witness for C5 on the cyclic two entity graph where entity 0 references
entity 1 and entity 1 references entity 0: both reachable entities end
resolved or failed. -/
theorem expansion_cycle_witness :
    ((runExpansion (fun _ => true) [[1], [0]] [0]).states[1]?
        = some ExpandState.resolved ∨
     (runExpansion (fun _ => true) [[1], [0]] [0]).states[1]?
        = some ExpandState.failed) ∧
    (runExpansion (fun _ => true) [[1], [0]] [0]).worklist = [] :=
  ⟨(expansion_terminates_and_resolves (fun _ => true) [[1], [0]] [0]).2.1 1
      (Reachable.step 0 1
        (Reachable.root 0 (by decide) (by decide))
        (by decide) (by decide)),
   (expansion_terminates_and_resolves (fun _ => true) [[1], [0]] [0]).1⟩
